import Mathlib

/-!
Shallow embedding of `src/app.py` (the Kombot chat front-end) and proofs of
the specification's testable properties.

The embedded pieces are:
* `convert_messages_to_history` (app.py lines 19-32): the History Adapter;
* `count_tokens_estimate` (app.py lines 47-52): the token estimate;
* the clear-conversation button handler (app.py lines 67-70);
* the chat-input pipeline (app.py lines 117-189): appending the user message,
  computing the history from `messages[:-1]`, the streaming accumulation loop,
  and the two exception handlers that `pop()` the pending user message.

Machine-independent conventions: a Python `{role, content}` dict becomes the
structure `Message`; Python string truthiness (`if chunk.text:`) becomes an
emptiness test; Python list slices are embedded with their exact semantics,
in particular `l[-k:]` is the WHOLE list when `k = 0`.
-/

/-- A transcript entry: Python dict `{"role": ..., "content": ...}`. -/
structure Message where
  role : String
  content : String
deriving DecidableEq

/-- A Gemini history entry: Python dict `{"role": ..., "parts": [...]}`. -/
structure HistoryEntry where
  role : String
  parts : List String
deriving DecidableEq

/-- Python slice `l[-k:]` for a natural `k`: the whole list when `k = 0`
(since `-0 == 0` in Python), otherwise the last `min k (len l)` elements. -/
def pySliceLast (l : List α) (k : Nat) : List α :=
  if k = 0 then l else l.drop (l.length - k)

/-- Role translation on app.py line 30:
`role = "model" if message["role"] == "assistant" else "user"`. -/
def translate_role (r : String) : String :=
  if r = "assistant" then "model" else "user"

/-- One message converted to the Gemini shape (app.py line 31). -/
def to_history_entry (m : Message) : HistoryEntry :=
  { role := translate_role m.role, parts := [m.content] }

/-- `convert_messages_to_history` (app.py lines 19-32):
`recent_messages = messages[-max_history:] if len(messages) > max_history else messages`,
then each message mapped to `{"role": role, "parts": [content]}`. -/
def convert_messages_to_history (messages : List Message) (max_history : Nat := 50) :
    List HistoryEntry :=
  let recent_messages :=
    if messages.length > max_history then pySliceLast messages max_history else messages
  recent_messages.map to_history_entry

/-- Total character count of all message contents (app.py line 51). -/
def total_chars (messages : List Message) : Nat :=
  (messages.map (fun m => m.content.length)).sum

/-- `count_tokens_estimate` (app.py lines 47-52): `total_chars // 4`. -/
def count_tokens_estimate (messages : List Message) : Nat :=
  total_chars messages / 4

/-- The inverse of the role translation, as the spec describes it
("user" ↔ "user", "assistant" ↔ "model"); it is not in the code, the spec
only asserts the translation has one. -/
def inverse_role (r : String) : String :=
  if r = "model" then "assistant" else "user"

/-- The values the `max_history` slider can produce (app.py lines 102-109):
min 10, max 100, step 10. -/
def slider_valid (k : Nat) : Prop :=
  10 ≤ k ∧ k ≤ 100 ∧ (k - 10) % 10 = 0

/-- The user message appended on app.py line 119. -/
def mkUserMessage (p : String) : Message :=
  { role := "user", content := p }

/-- The assistant message appended on app.py lines 156-159 / 167-170. -/
def mkAssistantMessage (t : String) : Message :=
  { role := "assistant", content := t }

/-- C1 counterexample: the History Adapter at window size 0: Python `messages[-0:]` is the whole
list, so a one-message transcript with `K = 0` yields output of length 1,
refuting "output length ≤ min(len(T), K)" for every K. -/
theorem history_adapter_zero_window_cex :
    ¬ ((convert_messages_to_history [{ role := "user", content := "a" }] 0).length ≤
        min ([{ role := "user", content := "a" }] : List Message).length 0) := by
  decide

/-- C1 (amended to window sizes K ≥ 1): the History Adapter returns exactly
the last min(len(T), K) messages of T in their original order, each with its
role translated and content preserved; its output length is min(len(T), K),
and on the empty transcript it returns the empty sequence. -/
theorem history_adapter_window (T : List Message) (K : Nat) (hK : 1 ≤ K) :
    convert_messages_to_history T K = (T.drop (T.length - K)).map to_history_entry
    ∧ (convert_messages_to_history T K).length = min T.length K
    ∧ convert_messages_to_history ([] : List Message) K = [] := by
  have hK0 : K ≠ 0 := by omega
  have hEq : convert_messages_to_history T K = (T.drop (T.length - K)).map to_history_entry := by
    unfold convert_messages_to_history pySliceLast
    by_cases h : T.length > K
    · simp [h, hK0]
    · have hTK : T.length - K = 0 := by omega
      simp [h, hTK]
  refine ⟨hEq, ?_, by simp [convert_messages_to_history]⟩
  rw [hEq]
  simp [List.length_map, List.length_drop]
  omega

/-- Witness for `history_adapter_window` at T = [user "a", assistant "b"], K = 1. -/
theorem history_adapter_window_witness :
    (1 : Nat) ≤ 1 ∧
    (convert_messages_to_history
        [{ role := "user", content := "a" }, { role := "assistant", content := "b" }] 1
      = (([{ role := "user", content := "a" }, { role := "assistant", content := "b" }] :
          List Message).drop
          (([{ role := "user", content := "a" }, { role := "assistant", content := "b" }] :
            List Message).length - 1)).map to_history_entry
    ∧ (convert_messages_to_history
        [{ role := "user", content := "a" }, { role := "assistant", content := "b" }] 1).length
      = min ([{ role := "user", content := "a" }, { role := "assistant", content := "b" }] :
          List Message).length 1
    ∧ convert_messages_to_history ([] : List Message) 1 = []) :=
  ⟨by decide, history_adapter_window _ 1 (by decide)⟩

/-- C9: the token estimate is the total character count of all message
contents divided by 4 — floor division, characterized both by an independent
fold formula and by the Euclidean bounds. -/
theorem token_estimate_div4 (msgs : List Message) :
    count_tokens_estimate msgs = (msgs.foldl (fun acc m => acc + m.content.length) 0) / 4
    ∧ 4 * count_tokens_estimate msgs ≤ total_chars msgs
    ∧ total_chars msgs < 4 * count_tokens_estimate msgs + 4 := by
  refine ⟨?_, ?_, ?_⟩
  · unfold count_tokens_estimate total_chars
    rw [List.sum_eq_foldl, List.foldl_map]
  · unfold count_tokens_estimate; omega
  · unfold count_tokens_estimate; omega

/-- C7: restricted to the internal roles {"user", "assistant"}, the role
translation maps into {"user", "model"}, is injective, is surjective onto
{"user", "model"}, and round-trips with its inverse mapping in both
directions. -/
theorem role_translation_bijection :
    (translate_role "user" = "user" ∧ translate_role "assistant" = "model")
    ∧ (∀ r r' : String, (r = "user" ∨ r = "assistant") → (r' = "user" ∨ r' = "assistant") →
        translate_role r = translate_role r' → r = r')
    ∧ (∀ s : String, (s = "user" ∨ s = "model") →
        ∃ r : String, (r = "user" ∨ r = "assistant") ∧ translate_role r = s)
    ∧ (∀ r : String, (r = "user" ∨ r = "assistant") → inverse_role (translate_role r) = r)
    ∧ (∀ s : String, (s = "user" ∨ s = "model") → translate_role (inverse_role s) = s) := by
  refine ⟨⟨by decide, by decide⟩, ?_, ?_, ?_, ?_⟩
  · rintro r r' (rfl | rfl) (rfl | rfl) h <;> first | rfl | exact absurd h (by decide)
  · rintro s (rfl | rfl)
    · exact ⟨"user", Or.inl rfl, by decide⟩
    · exact ⟨"assistant", Or.inr rfl, by decide⟩
  · rintro r (rfl | rfl) <;> decide
  · rintro s (rfl | rfl) <;> decide

/-- Witness for `role_translation_bijection`: both round-trips at a concrete role. -/
theorem role_translation_bijection_witness :
    inverse_role (translate_role "assistant") = "assistant"
    ∧ translate_role (inverse_role "model") = "model" :=
  ⟨role_translation_bijection.2.2.2.1 "assistant" (Or.inr rfl),
   role_translation_bijection.2.2.2.2 "model" (Or.inr rfl)⟩

/-- C10: the role translation is total over arbitrary role strings — any role
other than "assistant" becomes "user" — and consequently every entry the
adapter produces carries an external role in {"user", "model"}; the adapter
never fails on an unexpected role. -/
theorem role_translation_totality (r : String) (h : r ≠ "assistant") :
    translate_role r = "user"
    ∧ ∀ (msgs : List Message) (K : Nat),
        ∀ e ∈ convert_messages_to_history msgs K, e.role = "user" ∨ e.role = "model" := by
  constructor
  · unfold translate_role
    simp [h]
  · intro msgs K e he
    unfold convert_messages_to_history at he
    simp only [List.mem_map] at he
    obtain ⟨m, _, rfl⟩ := he
    unfold to_history_entry translate_role
    by_cases hm : m.role = "assistant" <;> simp [hm]

/-- Witness for `role_translation_totality` at the unexpected role "system". -/
theorem role_translation_totality_witness :
    translate_role "system" = "user"
    ∧ ∀ e ∈ convert_messages_to_history [{ role := "system", content := "s" }] 50,
        e.role = "user" ∨ e.role = "model" :=
  ⟨(role_translation_totality "system" (by decide)).1,
   fun e he => (role_translation_totality "system" (by decide)).2
     [{ role := "system", content := "s" }] 50 e he⟩

/-- One iteration of the streaming loop (app.py lines 147-150), acting on the
pair (full_response, renders so far): `if chunk.text:` skips empty fragments,
otherwise the fragment is appended to the accumulator and the accumulator
plus the cursor marker is rendered. -/
def stream_step (st : String × List String) (c : String) : String × List String :=
  if c = "" then st else (st.1 ++ c, st.2 ++ [st.1 ++ c ++ "▌"])

/-- The whole streaming loop over the emitted fragments, starting from the
empty accumulator and no renders. -/
def stream_loop (fragments : List String) : String × List String :=
  fragments.foldl stream_step ("", [])

/-- The accumulated `full_response` after the streaming loop. -/
def full_response (fragments : List String) : String :=
  (stream_loop fragments).1

/-- Everything the placeholder renders, in order: the cursor-marked renders of
the loop, then the final render without the marker (app.py line 153). -/
def stream_renders (fragments : List String) : List String :=
  (stream_loop fragments).2 ++ [(stream_loop fragments).1]

/-- Modelled from the spec: one step of the renderer the spec describes, in
which "the accumulator (plus a transient cursor marker) is rendered after
EVERY fragment", with no emptiness guard. -/
def spec_stream_step (st : String × List String) (c : String) : String × List String :=
  (st.1 ++ c, st.2 ++ [st.1 ++ c ++ "▌"])

/-- Modelled from the spec: the full render trace the spec describes — a
cursor-marked render after every fragment, then the final text without the
marker. -/
def spec_stream_renders (fragments : List String) : List String :=
  let fin := fragments.foldl spec_stream_step ("", [])
  fin.2 ++ [fin.1]

/-- Concatenation of all fragments in emission order. -/
def concat_fragments (fragments : List String) : String :=
  fragments.foldl (fun a b => a ++ b) ""

/-- Outcome of one request, as surfaced to the chat-input block: a completed
stream of fragments, a batch reply, a safety block
(`BlockedPromptException`, app.py line 172), or any other exception
(app.py line 180). A stream that fails after consuming some fragments falls
under the generic handler as well. -/
inductive Outcome where
  | streamOk (fragments : List String)
  | batchOk (text : String)
  | blocked
  | failed
  | streamFail (consumed : List String)
deriving DecidableEq

/-- The state change of one run of the chat-input block (app.py lines
117-189) on a transcript: the user message is appended (line 119); on success
the assistant message with the accumulated/returned text is appended (lines
156-159 / 167-170); on any exception the handler does
`st.session_state.messages.pop()` (lines 178 / 189). -/
def run_chat_turn (messages : List Message) (prompt : String) (o : Outcome) : List Message :=
  let m1 := messages ++ [mkUserMessage prompt]
  match o with
  | Outcome.streamOk frags => m1 ++ [mkAssistantMessage (full_response frags)]
  | Outcome.batchOk t => m1 ++ [mkAssistantMessage t]
  | Outcome.blocked => m1.dropLast
  | Outcome.failed => m1.dropLast
  | Outcome.streamFail _ => m1.dropLast

/-- The history passed to `start_chat` (app.py lines 130-136): the adapter
applied to `st.session_state.messages[:-1]`, i.e. the transcript with the
just-appended pending user message excluded. -/
def request_history (pre : List Message) (prompt : String) (K : Nat) : List HistoryEntry :=
  convert_messages_to_history ((pre ++ [mkUserMessage prompt]).dropLast) K

/-- The request sent for one turn: the seeded history together with the new
message text given to `send_message` (app.py line 145 / 163). -/
def turn_request (pre : List Message) (prompt : String) (K : Nat) :
    List HistoryEntry × String :=
  (request_history pre prompt K, prompt)

/-- Folding the guarded streaming step over all fragments equals folding the
unguarded spec step over the non-empty fragments only. -/
theorem stream_foldl_filter (frags : List String) :
    ∀ st : String × List String,
      frags.foldl stream_step st
        = (frags.filter (fun c => !(c == ""))).foldl spec_stream_step st := by
  induction frags with
  | nil => intro st; rfl
  | cons c t ih =>
    intro st
    by_cases hc : c = ""
    · subst hc
      simpa [stream_step] using ih st
    · have hc' : (!(c == "")) = true := by simpa using hc
      simp [List.filter_cons, hc', stream_step, hc, spec_stream_step, ih]

/-- The accumulator component of the spec fold is the initial accumulator
followed by the concatenation of the fragments. -/
theorem spec_foldl_fst (frags : List String) :
    ∀ (s : String) (rs : List String),
      (frags.foldl spec_stream_step (s, rs)).1 = frags.foldl (fun a b => a ++ b) s := by
  induction frags with
  | nil => intro s rs; rfl
  | cons c t ih => intro s rs; simp [spec_stream_step, ih]

/-- Concatenating after filtering out empty fragments is concatenating all
fragments. -/
theorem concat_filter_nonempty (frags : List String) :
    ∀ s : String,
      (frags.filter (fun c => !(c == ""))).foldl (fun a b => a ++ b) s
        = frags.foldl (fun a b => a ++ b) s := by
  induction frags with
  | nil => intro s; rfl
  | cons c t ih =>
    intro s
    by_cases hc : c = ""
    · subst hc
      simpa using ih s
    · have hc' : (!(c == "")) = true := by simpa using hc
      simp [List.filter_cons, hc', ih]

/-- C3 counterexample: on the fragment sequence ["Hi", ""] the code renders
["Hi▌", "Hi"] — the empty fragment is skipped by `if chunk.text:` — while the
spec's "rendered after every fragment" trace would be ["Hi▌", "Hi▌", "Hi"],
so the claim's render behaviour fails on sequences containing an empty
fragment. -/
theorem stream_render_empty_fragment_cex :
    stream_renders ["Hi", ""] = ["Hi▌", "Hi"]
    ∧ spec_stream_renders ["Hi", ""] = ["Hi▌", "Hi▌", "Hi"]
    ∧ stream_renders ["Hi", ""] ≠ spec_stream_renders ["Hi", ""] := by
  refine ⟨rfl, rfl, ?_⟩
  decide

/-- C3 (amended: the cursor-marked render happens after every NON-EMPTY
fragment; empty fragments are skipped): the render trace equals the
spec-described trace over the non-empty fragments, the accumulated text is
the concatenation of all fragments in emission order, and the transcript
gains exactly one assistant message whose content is that concatenation. -/
theorem streaming_accumulation (frags : List String) (pre : List Message) (p : String) :
    full_response frags = concat_fragments frags
    ∧ stream_renders frags = spec_stream_renders (frags.filter (fun c => !(c == "")))
    ∧ run_chat_turn pre p (Outcome.streamOk frags)
        = pre ++ [mkUserMessage p, mkAssistantMessage (concat_fragments frags)] := by
  have hfr : full_response frags = concat_fragments frags := by
    unfold full_response stream_loop concat_fragments
    rw [stream_foldl_filter, spec_foldl_fst, concat_filter_nonempty]
  refine ⟨hfr, ?_, ?_⟩
  · unfold stream_renders stream_loop spec_stream_renders
    rw [stream_foldl_filter]
  · simp only [run_chat_turn, hfr]
    simp

/-- C2: on any failed request — ContentBlocked, a generic failure, or a
stream that dies midway — the handler pops the pending user message and adds
no assistant message, so the transcript equals (and in particular has the
same length as) the transcript from immediately before the user input was
appended. -/
theorem failed_request_rollback (pre : List Message) (p : String) (consumed : List String) :
    run_chat_turn pre p Outcome.blocked = pre
    ∧ run_chat_turn pre p Outcome.failed = pre
    ∧ run_chat_turn pre p (Outcome.streamFail consumed) = pre
    ∧ (run_chat_turn pre p Outcome.blocked).length = pre.length
    ∧ (run_chat_turn pre p Outcome.failed).length = pre.length := by
  have h : (pre ++ [mkUserMessage p]).dropLast = pre := by simp
  simp only [run_chat_turn]
  exact ⟨h, h, h, by rw [h], by rw [h]⟩

/-- C6: the history used to seed the model conversation is the History
Adapter applied to the transcript with the just-appended pending user message
excluded; the pending text itself travels only as the new message of the
request, so it is never duplicated inside the history. -/
theorem history_excludes_pending (pre : List Message) (p : String) (K : Nat) :
    (pre ++ [mkUserMessage p]).dropLast = pre
    ∧ turn_request pre p K = (convert_messages_to_history pre K, p) := by
  have h : (pre ++ [mkUserMessage p]).dropLast = pre := by simp
  exact ⟨h, by unfold turn_request request_history; rw [h]⟩

/-- An action the UI can trigger: one full chat turn, or the
clear-conversation button. -/
inductive Event where
  | turn (prompt : String) (o : Outcome)
  | reset
deriving DecidableEq

/-- Effect of one event on the transcript: a chat turn runs the chat-input
block; reset sets `st.session_state.messages = []` (app.py line 68). -/
def apply_event (messages : List Message) : Event → List Message
  | Event.turn p o => run_chat_turn messages p o
  | Event.reset => []

/-- The transcript after a sequence of events, starting from the initial
empty transcript (app.py lines 56-57). -/
def run_events (events : List Event) : List Message :=
  events.foldl apply_event []

/-- Transcripts made of completed turns: empty, or a balanced transcript
followed by one user message and one assistant message. -/
inductive BalancedTranscript : List Message → Prop
  | nil : BalancedTranscript []
  | pair (rest : List Message) (u a : String) (h : BalancedTranscript rest) :
      BalancedTranscript (rest ++ [mkUserMessage u, mkAssistantMessage a])

/-- Every event preserves balancedness of the transcript. -/
theorem apply_event_balanced (m : List Message) (e : Event) (h : BalancedTranscript m) :
    BalancedTranscript (apply_event m e) := by
  cases e with
  | reset => exact BalancedTranscript.nil
  | turn p o =>
    cases o with
    | streamOk frags =>
      have := BalancedTranscript.pair m p (full_response frags) h
      simpa [apply_event, run_chat_turn] using this
    | batchOk t =>
      have := BalancedTranscript.pair m p t h
      simpa [apply_event, run_chat_turn] using this
    | blocked => simpa [apply_event, run_chat_turn] using h
    | failed => simpa [apply_event, run_chat_turn] using h
    | streamFail consumed => simpa [apply_event, run_chat_turn] using h

/-- Folding events from a balanced transcript stays balanced. -/
theorem foldl_events_balanced (events : List Event) :
    ∀ m : List Message, BalancedTranscript m → BalancedTranscript (events.foldl apply_event m) := by
  induction events with
  | nil => intro m h; exact h
  | cons e t ih => intro m h; exact ih (apply_event m e) (apply_event_balanced m e h)

/-- A balanced transcript never ends in a user message: its last entry, when
there is one, is an assistant message. -/
theorem balanced_last_assistant (l : List Message) (h : BalancedTranscript l) :
    ∀ m : Message, l.getLast? = some m → m.role = "assistant" := by
  induction h with
  | nil => intro m hm; cases hm
  | pair rest u a _ _ =>
    intro m hm
    have : (rest ++ [mkUserMessage u, mkAssistantMessage a]).getLast?
        = some (mkAssistantMessage a) := by
      rw [show rest ++ [mkUserMessage u, mkAssistantMessage a]
          = (rest ++ [mkUserMessage u]) ++ [mkAssistantMessage a] by simp]
      simp
    rw [this] at hm
    cases hm
    rfl

/-- C4: in every UI-reachable state (after any sequence of completed turns
and resets) the transcript consists of completed user/assistant pairs —
success appends the assistant message after the pending user message, every
failure path removes the pending user message — so it never ends in a
dangling user message. -/
theorem transcript_balanced_reachable (events : List Event) :
    BalancedTranscript (run_events events)
    ∧ ∀ m : Message, (run_events events).getLast? = some m → m.role = "assistant" := by
  have hb : BalancedTranscript (run_events events) := foldl_events_balanced events [] BalancedTranscript.nil
  exact ⟨hb, balanced_last_assistant _ hb⟩

/-- Witness for `transcript_balanced_reachable`: after one successful
streamed turn the last transcript entry is the assistant message. -/
theorem transcript_balanced_reachable_witness :
    (run_events [Event.turn "hi" (Outcome.streamOk ["ok"])]).getLast?
      = some (mkAssistantMessage "ok")
    ∧ (mkAssistantMessage "ok").role = "assistant" :=
  ⟨by decide,
   (transcript_balanced_reachable [Event.turn "hi" (Outcome.streamOk ["ok"])]).2
     (mkAssistantMessage "ok") (by decide)⟩

/-- C5 counterexample: on the very first turn the transcript starts empty
(app.py lines 56-57), the user submits "hi", and the adapter is invoked with
the default slider value K = 50 — a valid slider value — while the transcript
holds a single message and the adapter argument `messages[:-1]` is empty; the
adapter is nonetheless invoked and succeeds, so K exceeds the transcript
length at invocation time. -/
theorem window_size_exceeds_transcript_cex :
    slider_valid 50
    ∧ run_events [] = []
    ∧ ¬ (50 ≤ (run_events [] ++ [mkUserMessage "hi"]).length)
    ∧ ¬ (50 ≤ ((run_events [] ++ [mkUserMessage "hi"]).dropLast).length)
    ∧ request_history (run_events []) "hi" 50 = [] := by
  refine ⟨⟨by decide, by decide, by decide⟩, rfl, by decide, by decide, rfl⟩

/-- C5 (amended: the window size K — a slider value in 10..100 — MAY exceed
the transcript length when the History Adapter is invoked; the adapter is
total and in that case simply uses the whole transcript): whenever the
transcript is no longer than K, the adapter returns the full translated
transcript. -/
theorem adapter_window_ge_length (T : List Message) (K : Nat) (h : T.length ≤ K) :
    convert_messages_to_history T K = T.map to_history_entry := by
  have h' : ¬ (T.length > K) := by omega
  unfold convert_messages_to_history
  simp [h']

/-- Witness for `adapter_window_ge_length`: a one-message transcript with the
default window size 50. -/
theorem adapter_window_ge_length_witness :
    ([{ role := "user", content := "a" }] : List Message).length ≤ 50
    ∧ convert_messages_to_history [{ role := "user", content := "a" }] 50
      = ([{ role := "user", content := "a" }] : List Message).map to_history_entry :=
  ⟨by decide, adapter_window_ge_length _ 50 (by decide)⟩

/-- The per-session state: `st.session_state.messages` and
`st.session_state.session_start` (app.py lines 55-60), with time as a
numeric timestamp. -/
structure SessionState where
  messages : List Message
  session_start : Nat
deriving DecidableEq

/-- The clear-conversation button handler (app.py lines 67-70): both fields
are assigned — the transcript is emptied and the start time restamped with
`datetime.now()` — and only then `st.rerun()` triggers the next render,
which therefore sees both updates. -/
def clear_conversation (s : SessionState) (now : Nat) : SessionState :=
  { s with messages := [], session_start := now }

/-- C8: after the clear-conversation handler runs with the current clock
reading `now` (taken at or after the instant `t_invoke` the reset was
invoked), the state the next render sees has an empty transcript and a
session start time ≥ the invocation time. -/
theorem reset_clears_and_restamps (s : SessionState) (t_invoke now : Nat)
    (h : t_invoke ≤ now) :
    (clear_conversation s now).messages = []
    ∧ t_invoke ≤ (clear_conversation s now).session_start :=
  ⟨rfl, h⟩

/-- Witness for `reset_clears_and_restamps` on a concrete non-empty state. -/
theorem reset_clears_and_restamps_witness :
    (5 : Nat) ≤ 7
    ∧ ((clear_conversation ⟨[⟨"user", "x"⟩], 3⟩ 7).messages = []
    ∧ (5 : Nat) ≤ (clear_conversation ⟨[⟨"user", "x"⟩], 3⟩ 7).session_start) :=
  ⟨by decide, reset_clears_and_restamps ⟨[⟨"user", "x"⟩], 3⟩ 5 7 (by decide)⟩
